import Mathlib

set_option maxRecDepth 8000

/-!
# bible-cli AI subsystem: a verification development

Shallow embedding of the AI-provider streaming subsystem of bible-cli:

* `src/ai/openai.rs` and `src/ai/anthropic.rs` — the per-provider stream
  decoders (`stream_request`) and request translators (`from_request`);
* `src/commands.rs` — the interactive chat session loop
  (`run_ai_chat_streaming`), its retention policy (`trim_chat_history`),
  the `/provider` command arm, the turn-start and turn-finish fragments.

Rust `String` text is modelled as `List Char` where the decoder buffers
are concerned (chunks may split anywhere, including inside a line), and as
Lean `String` for session-level values. `serde_json` deserialization is an
external library call from the decoders' point of view, so it is a
parameter (`parse`) of each decoder: every theorem about the decoders
holds for an arbitrary parse function of the right result shape.

The HTTP transport is modelled by the data the decoders actually consume:
a status code, a body text (read only on non-success), and the list of
byte chunks of the streaming body.
-/

/-- `ai::ChatMessage` (src/ai/mod.rs): a role ("system"/"user"/"assistant")
with text content. -/
structure ChatMessage where
  role : String
  content : String
  deriving DecidableEq

/-- `ai::ProviderRequest` (src/ai/mod.rs): the provider-independent request
a session turn builds. `max_tokens` is `Option<u32>`, `temperature` is
`Option<f32>` (carried opaquely; nothing here computes with it). -/
structure ProviderRequest where
  model : String
  system : Option String
  messages : List ChatMessage
  max_tokens : Option Nat
  temperature : Option Float

/-- `ai::StreamEvent`. Its declaration is absent from src/ (only its uses
in the decoders and the session loop are present); the shape is forced by
those uses: `StreamEvent::Start`, `StreamEvent::Delta(String)`,
`StreamEvent::Done`, matching spec §3. -/
inductive StreamEvent where
  | Start : StreamEvent
  | Delta : String → StreamEvent
  | Done : StreamEvent
  deriving DecidableEq

/-! ## Request translators (src/ai/openai.rs 95-127, src/ai/anthropic.rs 105-134) -/

/-- Wire message of the OpenAI chat-completions body. -/
structure OpenAiMessage where
  role : String
  content : String
  deriving DecidableEq

/-- `OpenAiChatCompletionRequest` (src/ai/openai.rs 95-104). `max_tokens`
and `temperature` carry serde `skip_serializing_if = "Option::is_none"`:
the emitted JSON body contains those fields exactly when the option is
`some`. -/
structure OpenAiChatCompletionRequest where
  model : String
  messages : List OpenAiMessage
  max_tokens : Option Nat
  temperature : Option Float
  stream : Bool

/-- `OpenAiChatCompletionRequest::from_request` (src/ai/openai.rs 106-127):
system prompt, when present, becomes the first wire message with role
"system"; the request messages follow unchanged; `stream` forced true;
`max_tokens`/`temperature` pass through as options. -/
def OpenAiChatCompletionRequest.from_request (r : ProviderRequest) :
    OpenAiChatCompletionRequest :=
  { model := r.model
    messages :=
      (match r.system with
       | some s => [OpenAiMessage.mk "system" s]
       | none => []) ++ r.messages.map (fun m => OpenAiMessage.mk m.role m.content)
    max_tokens := r.max_tokens
    temperature := r.temperature
    stream := true }

/-- Whether the serialized OpenAI body contains a `max_tokens` field
(serde `skip_serializing_if = "Option::is_none"`). -/
def openaiBodyHasMaxTokens (w : OpenAiChatCompletionRequest) : Bool :=
  w.max_tokens.isSome

/-- Wire message of the Anthropic messages body. -/
structure AnthropicMessage where
  role : String
  content : String
  deriving DecidableEq

/-- `AnthropicMessageRequest` (src/ai/anthropic.rs 105-113): `max_tokens`
is a mandatory `u32` field; `system` is a dedicated top-level optional
field. -/
structure AnthropicMessageRequest where
  model : String
  max_tokens : Nat
  messages : List AnthropicMessage
  system : Option String
  stream : Bool

/-- `AnthropicMessageRequest::from_request` (src/ai/anthropic.rs 115-134):
messages pass through unchanged, `system` is carried top-level,
`max_tokens` is `request.max_tokens.unwrap_or(256)`, `stream` forced
true. -/
def AnthropicMessageRequest.from_request (r : ProviderRequest) :
    AnthropicMessageRequest :=
  { model := r.model
    max_tokens := r.max_tokens.getD 256
    messages := r.messages.map (fun m => AnthropicMessage.mk m.role m.content)
    system := r.system
    stream := true }

/-! ## Stream decoders (src/ai/openai.rs 25-92, src/ai/anthropic.rs 26-102)

Both decoders run the same buffer loop: append the (lossily decoded)
chunk to a text buffer; while the buffer contains a `\n`, split off the
first line, trim it, skip it when blank, and dispatch on the `data: `
payload; a trailing partial line stays buffered. `data: [DONE]`
(OpenAI) / a `message_stop` event (Anthropic) ends the decoder on the
spot (`return`), discarding everything that follows; when the transport
ends without that, a final `Done` is synthesized. -/

/-- Parsed shape of one OpenAI SSE payload, as deserialized by
`serde_json::from_str::<OpenAiStreamChunk>` (src/ai/openai.rs 144-157). -/
structure OpenAiDelta where
  content : Option String

structure OpenAiStreamChoice where
  delta : OpenAiDelta

structure OpenAiStreamChunk where
  choices : List OpenAiStreamChoice

/-- Parsed shape of one Anthropic SSE payload, as deserialized by
`serde_json::from_str::<AnthropicStreamEvent>` (src/ai/anthropic.rs
142-152). `event_type` is the JSON `type` discriminant. -/
structure AnthropicDelta where
  text : Option String

structure AnthropicStreamEvent where
  event_type : String
  delta : Option AnthropicDelta

/-- Rust `str::trim` on the character list: drop whitespace from both
ends. -/
def trimChars (l : List Char) : List Char :=
  ((l.dropWhile Char.isWhitespace).reverse.dropWhile Char.isWhitespace).reverse

/-- The characters of the SSE line marker `"data: "`. -/
def dataHdr : List Char := ['d', 'a', 't', 'a', ':', ' ']

/-- The characters of the OpenAI terminal payload `"[DONE]"`. -/
def doneLit : List Char := ['[', 'D', 'O', 'N', 'E', ']']

/-- `line.strip_prefix("data: ")`: the payload after the marker, or `none`
when the line does not start with it. -/
def stripData : List Char → Option (List Char)
  | 'd' :: 'a' :: 't' :: 'a' :: ':' :: ' ' :: rest => some rest
  | _ => none

/-- The OpenAI payload dispatch (src/ai/openai.rs 77-85): parse, take
`choices.first()`, its `delta.content`, keep it when non-empty. -/
def openaiDeltaOf (parse : List Char → Option OpenAiStreamChunk)
    (payload : List Char) : Option String :=
  match parse payload with
  | none => none
  | some parsed =>
    match parsed.choices with
    | [] => none
    | choice :: _ =>
      match choice.delta.content with
      | none => none
      | some content => if content = "" then none else some content

/-- What one extracted line makes a decoder do: emit events and continue,
or emit events and terminate the decoder (`return`). -/
inductive LineStep where
  | events : List StreamEvent → LineStep
  | terminal : List StreamEvent → LineStep
  deriving DecidableEq

/-- OpenAI per-line semantics (src/ai/openai.rs 63-87): trim, skip blank
lines and lines without the `data: ` marker; `[DONE]` terminates with
`Done`; otherwise a successfully parsed non-empty
`choices[0].delta.content` yields one `Delta`, anything else is skipped
silently. -/
def openaiHandleLine (parse : List Char → Option OpenAiStreamChunk)
    (raw : List Char) : LineStep :=
  let line := trimChars raw
  if line = [] then LineStep.events []
  else
    match stripData line with
    | none => LineStep.events []
    | some payload =>
      if payload = doneLit then LineStep.terminal [StreamEvent.Done]
      else
        match openaiDeltaOf parse payload with
        | none => LineStep.events []
        | some content => LineStep.events [StreamEvent.Delta content]

/-- Anthropic per-line semantics (src/ai/anthropic.rs 68-97): trim, skip
blank and non-`data: ` lines; a parsed `content_block_delta` with
non-empty nested `delta.text` yields one `Delta`; `message_stop`
terminates with `Done`; any other type, or a parse failure, is skipped
silently. -/
def anthropicHandleLine (parse : List Char → Option AnthropicStreamEvent)
    (raw : List Char) : LineStep :=
  let line := trimChars raw
  if line = [] then LineStep.events []
  else
    match stripData line with
    | none => LineStep.events []
    | some payload =>
      match parse payload with
      | none => LineStep.events []
      | some ev =>
        if ev.event_type = "content_block_delta" then
          match ev.delta with
          | none => LineStep.events []
          | some d =>
            match d.text with
            | none => LineStep.events []
            | some t =>
              if t = "" then LineStep.events []
              else LineStep.events [StreamEvent.Delta t]
        else if ev.event_type = "message_stop" then
          LineStep.terminal [StreamEvent.Done]
        else LineStep.events []

/-- The inner `while let Some(line_end) = buffer.find('\n')` loop of both
decoders, scanning one appended chunk left to right. `acc` is the pending
partial line carried in the buffer (by construction it never contains a
newline). Returns the events emitted and `some leftover` when the decoder
is still live, `none` when a line made it `return`. -/
def scanChunk (h : List Char → LineStep) :
    List Char → List Char → List StreamEvent × Option (List Char)
  | [], acc => ([], some acc)
  | c :: cs, acc =>
    if c = '\n' then
      match h acc with
      | LineStep.events evs =>
        let r := scanChunk h cs []
        (evs ++ r.1, r.2)
      | LineStep.terminal evs => (evs, none)
    else
      scanChunk h cs (acc ++ [c])

/-- One `while let Some(chunk) = stream.next()` iteration: a terminated
decoder consumes nothing, a live one scans the chunk against its buffered
partial line. -/
def stepState (h : List Char → LineStep) (st : Option (List Char))
    (chunk : List Char) : List StreamEvent × Option (List Char) :=
  match st with
  | none => ([], none)
  | some acc => scanChunk h chunk acc

/-- Run the decoder over the remaining chunks from a given state; when the
transport ends with the decoder still live, the final `Done` is
synthesized (src/ai/openai.rs 90, src/ai/anthropic.rs 100). -/
def runFrom (h : List Char → LineStep) :
    List (List Char) → Option (List Char) → List StreamEvent
  | [], none => []
  | [], some _ => [StreamEvent.Done]
  | c :: cs, st =>
    let r := stepState h st c
    r.1 ++ runFrom h cs r.2

/-- The full event sequence of a successful streaming exchange: `Start`
first (emitted right after the status check), then the chunk loop from an
empty buffer. -/
def streamBody (h : List Char → LineStep) (chunks : List (List Char)) :
    List StreamEvent :=
  StreamEvent.Start :: runFrom h chunks (some [])

/-- Concatenation of the chunk texts. -/
def joinAll : List (List Char) → List Char
  | [] => []
  | c :: cs => c ++ joinAll cs

/-- The trailing `Done` the transport-end path synthesizes, as a function
of the final decoder state. -/
def tailDone : Option (List Char) → List StreamEvent
  | none => []
  | some _ => [StreamEvent.Done]

/-! ## HTTP layer of `stream_request` -/

/-- What the decoders consume of the HTTP response: the status, the body
text (read whole only on the failure path) and the streamed chunks. -/
structure HttpResponse where
  status : Nat
  bodyText : List Char
  chunks : List (List Char)

/-- `reqwest::StatusCode::is_success`: 2xx. -/
def httpSuccess (s : Nat) : Bool :=
  decide (200 ≤ s ∧ s < 300)

/-- `OpenAiClient::stream_request` (src/ai/openai.rs 25-92) as the list of
`Result<StreamEvent>` items the async stream yields: on a non-success
status, a single error carrying the status and the trimmed body text and
nothing else; on success, `Start`, the decoded events, and a terminal
`Done`. -/
def openai_stream_request (parse : List Char → Option OpenAiStreamChunk)
    (resp : HttpResponse) : List (Except (Nat × List Char) StreamEvent) :=
  if httpSuccess resp.status then
    (streamBody (openaiHandleLine parse) resp.chunks).map Except.ok
  else
    [Except.error (resp.status, trimChars resp.bodyText)]

/-- `AnthropicClient::stream_request` (src/ai/anthropic.rs 26-102), same
shape as the OpenAI one with the Anthropic line semantics. -/
def anthropic_stream_request (parse : List Char → Option AnthropicStreamEvent)
    (resp : HttpResponse) : List (Except (Nat × List Char) StreamEvent) :=
  if httpSuccess resp.status then
    (streamBody (anthropicHandleLine parse) resp.chunks).map Except.ok
  else
    [Except.error (resp.status, trimChars resp.bodyText)]

/-! ## Chat session (src/commands.rs 258-423) -/

/-- `chat_message` (src/commands.rs 546-551). -/
def chat_message (role : String) (content : String) : ChatMessage :=
  { role := role, content := content }

/-- `trim_chat_history` (src/commands.rs 529-535): when the history
exceeds `base_messages + max_recent`, drain the range from the end of the
base prefix up to `len - max_recent`, keeping the base prefix and the most
recent `max_recent` messages. -/
def trim_chat_history (history : List ChatMessage)
    (base_messages max_recent : Nat) : List ChatMessage :=
  if history.length ≤ base_messages + max_recent then history
  else history.take base_messages ++ history.drop (history.length - max_recent)

/-- `BASE_MESSAGES` (src/commands.rs 263). -/
def BASE_MESSAGES : Nat := 1

/-- `MAX_HISTORY_MESSAGES` (src/commands.rs 264). -/
def MAX_HISTORY_MESSAGES : Nat := 16

/-- Rust `str::trim` on a Lean string. -/
def strTrim (s : String) : String := String.mk (trimChars s.data)

/-- Rust `str::to_lowercase` (the provider names are ASCII). -/
def strLower (s : String) : String := String.mk (s.data.map Char.toLower)

/-- The mutable session variables of `run_ai_chat_streaming`:
`current_model`, `current_provider` and `history`. -/
structure SessionState where
  current_model : String
  current_provider : String
  history : List ChatMessage
  deriving DecidableEq

/-- The `/provider` command arm (src/commands.rs 329-344). `rest` is the
text after `"/provider"`; the returned strings are the `print_dim`
diagnostics. An empty rest shows the current provider; a recognized name
(case-insensitively `openai` or `anthropic`) is installed lowercased;
anything else leaves the state untouched and reports the unknown name. -/
def handle_provider_command (st : SessionState) (rest : String) :
    SessionState × List String :=
  let provider_name := strTrim rest
  if provider_name = "" then
    (st, ["Current provider: " ++ st.current_provider,
          "Usage: /provider <openai|anthropic>"])
  else if strLower provider_name = "openai" ∨ strLower provider_name = "anthropic" then
    ({ st with current_provider := strLower provider_name },
     ["Provider set to " ++ strLower provider_name])
  else
    (st, ["Unknown provider: " ++ provider_name ++ " (supported: openai, anthropic)"])

/-- The turn-start fragment (src/commands.rs 346-358): push the user line,
apply retention, then resolve the provider client
(`AiProvider::from_name`, whose credential lookup is abstracted as
`resolve`); on failure report, `history.pop()` the just-pushed message and
continue without a request. The boolean says whether a request was
issued. -/
def start_turn (resolve : String → Except String Unit) (st : SessionState)
    (line : String) : SessionState × Bool :=
  let h := trim_chat_history (st.history ++ [chat_message "user" line])
    BASE_MESSAGES MAX_HISTORY_MESSAGES
  match resolve st.current_provider with
  | Except.error _ => ({ st with history := h.dropLast }, false)
  | Except.ok _ => ({ st with history := h }, true)

/-- The response-consumption loop (src/commands.rs 378-397): fold over the
stream items accumulating `response_text`; `Done` and an error item both
`break`. -/
def accumulate_response : List (Except String StreamEvent) → String → String
  | [], acc => acc
  | Except.ok StreamEvent.Start :: rest, acc => accumulate_response rest acc
  | Except.ok (StreamEvent.Delta t) :: rest, acc => accumulate_response rest (acc ++ t)
  | Except.ok StreamEvent.Done :: _, acc => acc
  | Except.error _ :: _, acc => acc

/-- The turn-finish fragment (src/commands.rs 399-419): after the loop —
whether it ended by `Done`, stream end, or an error item — a non-empty
`response_text` is pushed to history as an assistant message and retention
applied; an empty one leaves history alone. -/
def finish_turn (history : List ChatMessage)
    (items : List (Except String StreamEvent)) : List ChatMessage :=
  let response_text := accumulate_response items ""
  if response_text = "" then history
  else
    trim_chat_history (history ++ [chat_message "assistant" response_text])
      BASE_MESSAGES MAX_HISTORY_MESSAGES

/-! ## Concrete fixtures used by witnesses and counterexamples -/

/-- A transcript data line: `"data: " ++ payload ++ "\n"`. -/
def dataLine (p : List Char) : List Char := dataHdr ++ p ++ ['\n']

/-- The terminal transcript line `"data: [DONE]\n"`. -/
def doneLine : List Char := dataHdr ++ doneLit ++ ['\n']

/-- A well-formed OpenAI transcript: one data line per payload, then the
`[DONE]` line. -/
def transcriptOf (pl : List (List Char × String)) : List Char :=
  joinAll (pl.map (fun q => dataLine q.1)) ++ doneLine

/-- Well-formedness of one payload/content pair of an OpenAI transcript:
the payload spans one line, the `data: ` line is trim-stable, the payload
is not the terminal literal, and it parses to a chunk whose
`choices[0].delta.content` is the (non-empty) content. -/
abbrev WFPayload (parse : List Char → Option OpenAiStreamChunk)
    (p : List Char) (t : String) : Prop :=
  '\n' ∉ p ∧ trimChars (dataHdr ++ p) = dataHdr ++ p ∧ p ≠ doneLit ∧
    openaiDeltaOf parse p = some t

/-- A concrete stand-in for `serde_json` used by witnesses: recognizes two
fixed payloads. -/
def toyParse : List Char → Option OpenAiStreamChunk := fun p =>
  if p = "p1".data then some ⟨[⟨⟨some "Hello"⟩⟩]⟩
  else if p = "p2".data then some ⟨[⟨⟨some " world"⟩⟩]⟩
  else none

/-- The witness transcript `data: p1\ndata: p2\ndata: [DONE]\n` split
mid-line into chunks, one of them empty. -/
def c1chunks : List (List Char) :=
  ["data: p".data, "1\ndata: p2\nda".data, "".data, "ta: [DONE]\n".data]

/-- Seed history plus a just-appended user message, as it stands when a
streaming turn begins. -/
def seedUserHistory : List ChatMessage :=
  [chat_message "user" "Passage:\nGenesis 1:1 In the beginning God created the heaven and the earth.\n",
   chat_message "user" "Tell me a story"]

/-- Stream items of a turn that fails mid-stream after partial output. -/
def errorItems : List (Except String StreamEvent) :=
  [Except.ok StreamEvent.Start, Except.ok (StreamEvent.Delta "Once upon a"),
   Except.error "Failed to read chunk"]

/-- A request with no `max_tokens`. -/
def c4request : ProviderRequest :=
  { model := "gpt-4o-mini"
    system := some "You are a thoughtful Bible assistant."
    messages := [chat_message "user" "hi"]
    max_tokens := none
    temperature := none }

/-- The base (seed-passage) message of the concrete retention scenario. -/
def seedMsg : ChatMessage :=
  chat_message "user" "Passage:\nGenesis 1:1 In the beginning God created the heaven and the earth.\n"

/-- Twenty user/assistant pairs, i.e. forty appended messages. -/
def pairMsgs : List ChatMessage :=
  (List.range 20).flatMap (fun i =>
    [chat_message "user" ("question " ++ toString i),
     chat_message "assistant" ("answer " ++ toString i)])

/-- The history after the session appends the twenty pairs one message at
a time, applying retention after each append, as the loop does. -/
def scenarioHistory : List ChatMessage :=
  pairMsgs.foldl
    (fun h m => trim_chat_history (h ++ [m]) BASE_MESSAGES MAX_HISTORY_MESSAGES)
    [seedMsg]

/-- A provider resolution that always fails, as `AiProvider::from_name`
does when the credential environment variable is unset. -/
def errResolve : String → Except String Unit := fun _ =>
  Except.error "Missing required environment variable: OPENAI_API_KEY"

/-- A full history: the base message plus sixteen recent ones. -/
def hist17 : List ChatMessage :=
  seedMsg :: (List.range 16).map (fun i => chat_message "user" ("m" ++ toString i))

/-! ## Decoder machinery lemmas -/

/-- Scanning a concatenation is scanning the pieces in sequence: the state
after the first piece (pending partial line, or terminated) is exactly
what the second piece is scanned against. This is why chunk boundaries are
invisible to the decoders. -/
theorem scanChunk_append (h : List Char → LineStep) (b : List Char) :
    ∀ (a acc : List Char),
      scanChunk h (a ++ b) acc =
        ((scanChunk h a acc).1 ++ (stepState h (scanChunk h a acc).2 b).1,
         (stepState h (scanChunk h a acc).2 b).2) := by
  intro a
  induction a with
  | nil =>
    intro acc
    simp [scanChunk, stepState]
  | cons c cs ih =>
    intro acc
    by_cases hc : c = '\n'
    · subst hc
      cases hh : h acc with
      | events evs =>
        simp [scanChunk, hh, ih [], List.append_assoc]
      | terminal evs =>
        simp [scanChunk, hh, stepState]
    · simp only [List.cons_append, scanChunk, if_neg hc]
      exact ih (acc ++ [c])

/-- A terminated decoder emits nothing on any further chunks. -/
theorem runFrom_none (h : List Char → LineStep) :
    ∀ chunks, runFrom h chunks none = [] := by
  intro chunks
  induction chunks with
  | nil => rfl
  | cons c cs ih => simp [runFrom, stepState, ih]

/-- Running the decoder over a chunk list is scanning the concatenated
text once, plus the synthesized `Done` when the scan leaves the decoder
live. -/
theorem runFrom_join (h : List Char → LineStep) :
    ∀ (chunks : List (List Char)) (acc : List Char),
      runFrom h chunks (some acc) =
        (scanChunk h (joinAll chunks) acc).1 ++
          tailDone (scanChunk h (joinAll chunks) acc).2 := by
  intro chunks
  induction chunks with
  | nil =>
    intro acc
    simp [runFrom, joinAll, scanChunk, tailDone]
  | cons c cs ih =>
    intro acc
    rw [show joinAll (c :: cs) = c ++ joinAll cs from rfl,
      scanChunk_append h (joinAll cs) c acc]
    cases hs : (scanChunk h c acc).2 with
    | none =>
      simp [runFrom, stepState, hs, runFrom_none, tailDone]
    | some acc2 =>
      simp [runFrom, stepState, hs, ih acc2, List.append_assoc]

/-- The decoded event sequence depends only on the concatenated bytes, not
on how they were cut into chunks. -/
theorem streamBody_rechunk (h : List Char → LineStep)
    (c1 c2 : List (List Char)) (hj : joinAll c1 = joinAll c2) :
    streamBody h c1 = streamBody h c2 := by
  unfold streamBody
  rw [runFrom_join, runFrom_join, hj]

/-- A handler is well-shaped when a non-terminal line yields only `Delta`
events and a terminal line yields exactly `[Done]`. -/
def GoodHandle (h : List Char → LineStep) : Prop :=
  ∀ l, (∃ ds : List String, h l = LineStep.events (ds.map StreamEvent.Delta)) ∨
    h l = LineStep.terminal [StreamEvent.Done]

/-- With a well-shaped handler, a scan emits only `Delta`s while live, and
only `Delta`s followed by one `Done` when it terminates. -/
theorem scanChunk_shape (h : List Char → LineStep) (hg : GoodHandle h) :
    ∀ (l acc : List Char),
      (∃ ds acc2, scanChunk h l acc = (List.map StreamEvent.Delta ds, some acc2)) ∨
      (∃ ds, scanChunk h l acc =
        (List.map StreamEvent.Delta ds ++ [StreamEvent.Done], none)) := by
  intro l
  induction l with
  | nil =>
    intro acc
    exact Or.inl ⟨[], acc, rfl⟩
  | cons c cs ih =>
    intro acc
    by_cases hc : c = '\n'
    · subst hc
      rcases hg acc with ⟨ds, hds⟩ | hterm
      · rcases ih [] with ⟨ds2, acc2, h2⟩ | ⟨ds2, h2⟩
        · exact Or.inl ⟨ds ++ ds2, acc2, by simp [scanChunk, hds, h2]⟩
        · exact Or.inr ⟨ds ++ ds2, by simp [scanChunk, hds, h2, List.append_assoc]⟩
      · exact Or.inr ⟨[], by simp [scanChunk, hterm]⟩
    · have := ih (acc ++ [c])
      simpa [scanChunk, hc] using this

/-- With a well-shaped handler, a full run from a live state is some
`Delta`s followed by exactly one `Done`. -/
theorem runFrom_shape (h : List Char → LineStep) (hg : GoodHandle h) :
    ∀ (chunks : List (List Char)) (acc : List Char),
      ∃ ds : List String, runFrom h chunks (some acc) =
        List.map StreamEvent.Delta ds ++ [StreamEvent.Done] := by
  intro chunks
  induction chunks with
  | nil =>
    intro acc
    exact ⟨[], rfl⟩
  | cons c cs ih =>
    intro acc
    rcases scanChunk_shape h hg c acc with ⟨ds, acc2, h2⟩ | ⟨ds, h2⟩
    · rcases ih acc2 with ⟨ds2, h3⟩
      exact ⟨ds ++ ds2, by simp [runFrom, stepState, h2, h3, List.append_assoc]⟩
    · exact ⟨ds, by simp [runFrom, stepState, h2, runFrom_none]⟩

/-- The OpenAI per-line handler is well-shaped. -/
theorem openaiHandleLine_good (parse : List Char → Option OpenAiStreamChunk) :
    GoodHandle (openaiHandleLine parse) := by
  intro l
  by_cases h0 : trimChars l = []
  · exact Or.inl ⟨[], by simp [openaiHandleLine, h0]⟩
  · cases hsd : stripData (trimChars l) with
    | none => exact Or.inl ⟨[], by simp [openaiHandleLine, h0, hsd]⟩
    | some payload =>
      by_cases hd : payload = doneLit
      · exact Or.inr (by simp [openaiHandleLine, h0, hsd, hd])
      · cases hdel : openaiDeltaOf parse payload with
        | none => exact Or.inl ⟨[], by simp [openaiHandleLine, h0, hsd, hd, hdel]⟩
        | some t => exact Or.inl ⟨[t], by simp [openaiHandleLine, h0, hsd, hd, hdel]⟩

/-- The Anthropic per-line handler is well-shaped. -/
theorem anthropicHandleLine_good (parse : List Char → Option AnthropicStreamEvent) :
    GoodHandle (anthropicHandleLine parse) := by
  intro l
  by_cases h0 : trimChars l = []
  · exact Or.inl ⟨[], by simp [anthropicHandleLine, h0]⟩
  · cases hsd : stripData (trimChars l) with
    | none => exact Or.inl ⟨[], by simp [anthropicHandleLine, h0, hsd]⟩
    | some payload =>
      cases hp : parse payload with
      | none => exact Or.inl ⟨[], by simp [anthropicHandleLine, h0, hsd, hp]⟩
      | some ev =>
        by_cases he1 : ev.event_type = "content_block_delta"
        · cases hdl : ev.delta with
          | none => exact Or.inl ⟨[], by simp [anthropicHandleLine, h0, hsd, hp, he1, hdl]⟩
          | some d =>
            cases ht : d.text with
            | none =>
              exact Or.inl ⟨[], by simp [anthropicHandleLine, h0, hsd, hp, he1, hdl, ht]⟩
            | some t =>
              by_cases hte : t = ""
              · exact Or.inl ⟨[], by simp [anthropicHandleLine, h0, hsd, hp, he1, hdl, ht, hte]⟩
              · exact Or.inl ⟨[t], by simp [anthropicHandleLine, h0, hsd, hp, he1, hdl, ht, hte]⟩
        · by_cases he2 : ev.event_type = "message_stop"
          · exact Or.inr (by simp [anthropicHandleLine, h0, hsd, hp, he1, he2])
          · exact Or.inl ⟨[], by simp [anthropicHandleLine, h0, hsd, hp, he1, he2]⟩

/-- Scanning a newline-terminated line dispatches the handler once on the
pending text plus the line, then continues with an empty pending line (or
stops, when the handler terminates). -/
theorem scanChunk_line (h : List Char → LineStep) :
    ∀ (l : List Char), '\n' ∉ l → ∀ (rest acc : List Char),
      scanChunk h (l ++ '\n' :: rest) acc =
        (match h (acc ++ l) with
         | LineStep.events evs =>
           (evs ++ (scanChunk h rest []).1, (scanChunk h rest []).2)
         | LineStep.terminal evs => (evs, none)) := by
  intro l
  induction l with
  | nil =>
    intro _ rest acc
    cases hh : h acc with
    | events evs => simp [scanChunk, hh]
    | terminal evs => simp [scanChunk, hh]
  | cons c cs ih =>
    intro hnl rest acc
    have hc : c ≠ '\n' := fun he => hnl (he ▸ List.mem_cons_self c cs)
    have hcs : '\n' ∉ cs := fun hm => hnl (List.mem_cons_of_mem c hm)
    have hacc : acc ++ c :: cs = (acc ++ [c]) ++ cs := by simp
    rw [List.cons_append, show scanChunk h (c :: (cs ++ '\n' :: rest)) acc =
      scanChunk h (cs ++ '\n' :: rest) (acc ++ [c]) by simp [scanChunk, hc],
      ih hcs rest (acc ++ [c]), hacc]

/-- The handler's verdict on a well-formed data line: exactly one
`Delta` with the payload's content. -/
theorem openaiHandleLine_data (parse : List Char → Option OpenAiStreamChunk)
    (p : List Char) (t : String)
    (htrim : trimChars (dataHdr ++ p) = dataHdr ++ p)
    (hne : p ≠ doneLit)
    (hdel : openaiDeltaOf parse p = some t) :
    openaiHandleLine parse (dataHdr ++ p) = LineStep.events [StreamEvent.Delta t] := by
  have h1 : dataHdr ++ p ≠ ([] : List Char) := by simp [dataHdr]
  have h2 : stripData (dataHdr ++ p) = some p := rfl
  simp [openaiHandleLine, htrim, h1, h2, hne, hdel]

/-- The handler's verdict on the terminal line `data: [DONE]`. -/
theorem openaiHandleLine_done (parse : List Char → Option OpenAiStreamChunk) :
    openaiHandleLine parse (dataHdr ++ doneLit) = LineStep.terminal [StreamEvent.Done] := by
  rfl

/-- Scanning a whole well-formed transcript from an empty buffer yields
one `Delta` per payload, in order, then the `Done` of the `[DONE]` line,
and terminates the decoder. -/
theorem scanChunk_transcript (parse : List Char → Option OpenAiStreamChunk) :
    ∀ (pl : List (List Char × String)),
      (∀ q ∈ pl, WFPayload parse q.1 q.2) →
      scanChunk (openaiHandleLine parse) (transcriptOf pl) [] =
        (List.map StreamEvent.Delta (pl.map Prod.snd) ++ [StreamEvent.Done], none) := by
  intro pl
  induction pl with
  | nil =>
    intro _
    have hsplit : transcriptOf [] = (dataHdr ++ doneLit) ++ '\n' :: [] := by
      simp [transcriptOf, joinAll, doneLine]
    have hnl : '\n' ∉ dataHdr ++ doneLit := by decide
    rw [hsplit, scanChunk_line _ _ hnl [] [], List.nil_append,
      openaiHandleLine_done]
    rfl
  | cons q ql ih =>
    intro hall
    have hq := hall q (List.mem_cons_self q ql)
    have hrest : ∀ r ∈ ql, WFPayload parse r.1 r.2 := fun r hr =>
      hall r (List.mem_cons_of_mem q hr)
    have hsplit : transcriptOf (q :: ql) =
        (dataHdr ++ q.1) ++ '\n' :: transcriptOf ql := by
      simp [transcriptOf, joinAll, dataLine, List.append_assoc]
    have hnl : '\n' ∉ dataHdr ++ q.1 := by
      intro hm
      rcases List.mem_append.mp hm with hm | hm
      · exact absurd hm (by decide)
      · exact hq.1 hm
    rw [hsplit, scanChunk_line _ _ hnl (transcriptOf ql) [], List.nil_append,
      openaiHandleLine_data parse q.1 q.2 hq.2.1 hq.2.2.1 hq.2.2.2, ih hrest]
    simp

/-! ## Session lemmas -/

/-- Retention is the identity within capacity. -/
theorem trim_chat_history_le (h : List ChatMessage) (B M : Nat)
    (hle : h.length ≤ B + M) : trim_chat_history h B M = h := by
  unfold trim_chat_history
  rw [if_pos hle]

/-- Retention over capacity keeps the base prefix and the last `M`
messages. -/
theorem trim_chat_history_gt (h : List ChatMessage) (B M : Nat)
    (hgt : B + M < h.length) :
    trim_chat_history h B M = h.take B ++ h.drop (h.length - M) := by
  unfold trim_chat_history
  rw [if_neg (by omega)]

/-- Accumulating a run of `Delta` items that ends in an error folds the
delta texts onto the accumulator (the error breaks the loop). -/
theorem accumulate_response_deltas (e : String) :
    ∀ (ts : List String) (acc : String),
      accumulate_response
        (ts.map (fun t => Except.ok (StreamEvent.Delta t)) ++ [Except.error e]) acc =
      ts.foldl (fun a b => a ++ b) acc := by
  intro ts
  induction ts with
  | nil => intro acc; rfl
  | cons t ts ih => intro acc; simpa [accumulate_response] using ih (acc ++ t)

/-! ## Claim theorems -/

/-- C2: for every input byte-chunk sequence, each decoder's event sequence
is exactly one `Start` first, then zero or more `Delta`s in arrival order,
then exactly one terminal `Done` with no event of any kind after it; in
particular when the byte stream ends without an explicit terminal payload
(`[DONE]` / `message_stop`), the trailing `Done` in this shape is the one
the decoder synthesizes at stream end. -/
theorem decoder_event_shape
    (parseO : List Char → Option OpenAiStreamChunk)
    (parseA : List Char → Option AnthropicStreamEvent)
    (chunksO chunksA : List (List Char)) :
    (∃ ds : List String, streamBody (openaiHandleLine parseO) chunksO =
       StreamEvent.Start :: (List.map StreamEvent.Delta ds ++ [StreamEvent.Done])) ∧
    (∃ ds : List String, streamBody (anthropicHandleLine parseA) chunksA =
       StreamEvent.Start :: (List.map StreamEvent.Delta ds ++ [StreamEvent.Done])) := by
  constructor
  · rcases runFrom_shape _ (openaiHandleLine_good parseO) chunksO [] with ⟨ds, hds⟩
    exact ⟨ds, by rw [streamBody, hds]⟩
  · rcases runFrom_shape _ (anthropicHandleLine_good parseA) chunksA [] with ⟨ds, hds⟩
    exact ⟨ds, by rw [streamBody, hds]⟩

/-- C5: a streaming exchange whose HTTP status is not a success yields no
`StreamEvent` at all (in particular no `Start`) — only a single failure
item carrying the numeric status and the (trimmed) body text — and the
response's streamed chunks are never interpreted: the output does not
depend on them. -/
theorem non_success_yields_failure
    (parseO : List Char → Option OpenAiStreamChunk)
    (parseA : List Char → Option AnthropicStreamEvent)
    (ro ra : HttpResponse)
    (ho : httpSuccess ro.status = false) (ha : httpSuccess ra.status = false) :
    openai_stream_request parseO ro =
      [Except.error (ro.status, trimChars ro.bodyText)] ∧
    (∀ ev, Except.ok ev ∉ openai_stream_request parseO ro) ∧
    (∀ chunks2, openai_stream_request parseO { ro with chunks := chunks2 } =
      openai_stream_request parseO ro) ∧
    anthropic_stream_request parseA ra =
      [Except.error (ra.status, trimChars ra.bodyText)] ∧
    (∀ ev, Except.ok ev ∉ anthropic_stream_request parseA ra) ∧
    (∀ chunks2, anthropic_stream_request parseA { ra with chunks := chunks2 } =
      anthropic_stream_request parseA ra) := by
  refine ⟨?_, ?_, ?_, ?_, ?_, ?_⟩
  · simp [openai_stream_request, ho]
  · intro ev; simp [openai_stream_request, ho]
  · intro chunks2; simp [openai_stream_request, ho]
  · simp [anthropic_stream_request, ha]
  · intro ev; simp [anthropic_stream_request, ha]
  · intro chunks2; simp [anthropic_stream_request, ha]

/-- Witness for C5: a 404 with body text on both decoders. -/
theorem non_success_yields_failure_check :
    openai_stream_request toyParse ⟨404, "Not Found".data, ["data: x\n".data]⟩ =
      [Except.error (404, trimChars "Not Found".data)] ∧
    anthropic_stream_request (fun _ => none) ⟨500, " oops ".data, []⟩ =
      [Except.error (500, trimChars " oops ".data)] := by
  have h := non_success_yields_failure toyParse (fun _ => none)
    ⟨404, "Not Found".data, ["data: x\n".data]⟩ ⟨500, " oops ".data, []⟩
    (by decide) (by decide)
  exact ⟨h.1, h.2.2.2.1⟩

/-- C4 counterexample: the OpenAI translator places no default
`max_tokens`: for a request without one, the emitted OpenAI body has no
`max_tokens` field at all (serde skips the `None`), contradicting the
claim that every translator places a provider-specific default. -/
theorem openai_no_default_max_tokens_counterexample :
    c4request.max_tokens = none ∧
    openaiBodyHasMaxTokens (OpenAiChatCompletionRequest.from_request c4request) = false := by
  decide

/-- C4 amended: the Anthropic translator always emits a non-negative
`max_tokens`, defaulting to 256 when the request leaves it unspecified;
the OpenAI translator passes the optional `max_tokens` through unchanged
and omits the field from the wire body when it is absent. -/
theorem max_tokens_defaults (r : ProviderRequest) :
    (AnthropicMessageRequest.from_request r).max_tokens = r.max_tokens.getD 256 ∧
    (OpenAiChatCompletionRequest.from_request r).max_tokens = r.max_tokens ∧
    (r.max_tokens = none →
      (AnthropicMessageRequest.from_request r).max_tokens = 256 ∧
      openaiBodyHasMaxTokens (OpenAiChatCompletionRequest.from_request r) = false) := by
  refine ⟨rfl, rfl, fun hn => ?_⟩
  constructor
  · show r.max_tokens.getD 256 = 256
    rw [hn]; rfl
  · show r.max_tokens.isSome = false
    rw [hn]; rfl

/-- Witness for C4 (amended): the concrete request without `max_tokens`. -/
theorem max_tokens_defaults_check :
    (AnthropicMessageRequest.from_request c4request).max_tokens = 256 ∧
    openaiBodyHasMaxTokens (OpenAiChatCompletionRequest.from_request c4request) = false :=
  (max_tokens_defaults c4request).2.2 rfl

/-- C8: the OpenAI wire body's messages are the system message (when
present) first with role "system", followed by the request's messages
unchanged and in order, with the streaming flag forced true; the Anthropic
wire body carries the system prompt only in its dedicated top-level field
and its messages equal the request's messages unchanged. -/
theorem wire_body_shapes (r : ProviderRequest) :
    (OpenAiChatCompletionRequest.from_request r).messages =
      (match r.system with
       | some s => [OpenAiMessage.mk "system" s]
       | none => []) ++ r.messages.map (fun m => OpenAiMessage.mk m.role m.content) ∧
    (OpenAiChatCompletionRequest.from_request r).stream = true ∧
    (AnthropicMessageRequest.from_request r).messages =
      r.messages.map (fun m => AnthropicMessage.mk m.role m.content) ∧
    (AnthropicMessageRequest.from_request r).system = r.system ∧
    (AnthropicMessageRequest.from_request r).stream = true :=
  ⟨rfl, rfl, rfl, rfl, rfl⟩

/-- C1: for a well-formed OpenAI transcript ending in `data: [DONE]` and
any way of splitting its bytes into chunks (mid-line included), the
decoder emits `Start`, one `Delta` per payload in payload order, then
exactly one `Done`; the event output is invariant under re-chunking of the
bytes (so empty chunks change nothing), and an empty chunk yields no
events from any decoder state. -/
theorem openai_transcript_decoding :
    (∀ (parse : List Char → Option OpenAiStreamChunk)
       (pl : List (List Char × String)) (chunks : List (List Char)),
       (∀ q ∈ pl, WFPayload parse q.1 q.2) →
       joinAll chunks = transcriptOf pl →
       streamBody (openaiHandleLine parse) chunks =
         StreamEvent.Start ::
           (List.map StreamEvent.Delta (pl.map Prod.snd) ++ [StreamEvent.Done])) ∧
    (∀ (parse : List Char → Option OpenAiStreamChunk) (c1 c2 : List (List Char)),
       joinAll c1 = joinAll c2 →
       streamBody (openaiHandleLine parse) c1 = streamBody (openaiHandleLine parse) c2) ∧
    (∀ (h : List Char → LineStep) (st : Option (List Char)),
       stepState h st [] = ([], st)) := by
  refine ⟨?_, ?_, ?_⟩
  · intro parse pl chunks hwf hj
    rw [streamBody, runFrom_join, hj, scanChunk_transcript parse pl hwf]
    simp [tailDone]
  · intro parse c1 c2 hj
    exact streamBody_rechunk _ c1 c2 hj
  · intro h st
    cases st with
    | none => rfl
    | some acc => rfl

/-- Witness for C1: the transcript `data: p1\ndata: p2\ndata: [DONE]\n`
cut mid-line into chunks (one empty), decoded against the two-payload toy
parse. -/
theorem openai_transcript_decoding_check :
    streamBody (openaiHandleLine toyParse) c1chunks =
      StreamEvent.Start ::
        (List.map StreamEvent.Delta ["Hello", " world"] ++ [StreamEvent.Done]) :=
  openai_transcript_decoding.1 toyParse
    [("p1".data, "Hello"), ("p2".data, " world")] c1chunks
    (by decide) (by decide)

/-- C6: retention removes the oldest messages strictly after the base
prefix until the recent suffix has length `M`, keeps the base prefix
unchanged, and is the identity within capacity; concretely with base 1 and
max-recent 16, after the session appends twenty user/assistant pairs the
history has length 17 and its recent part is exactly the 16 most recently
appended messages in their original order. -/
theorem retention_policy :
    (∀ (h : List ChatMessage) (B M : Nat),
      (h.length ≤ B + M → trim_chat_history h B M = h) ∧
      (B + M < h.length →
        trim_chat_history h B M = h.take B ++ h.drop (h.length - M) ∧
        (trim_chat_history h B M).length = B + M ∧
        (trim_chat_history h B M).take B = h.take B ∧
        (trim_chat_history h B M).drop B = h.drop (h.length - M))) ∧
    scenarioHistory.length = 17 ∧
    scenarioHistory = seedMsg :: pairMsgs.drop 24 := by
  refine ⟨fun h B M => ⟨trim_chat_history_le h B M, fun hgt => ?_⟩, by decide, by decide⟩
  have heq := trim_chat_history_gt h B M hgt
  have hBlen : (h.take B).length = B := by
    rw [List.length_take]; omega
  have hdlen : (h.drop (h.length - M)).length = M := by
    rw [List.length_drop]; omega
  refine ⟨heq, ?_, ?_, ?_⟩
  · rw [heq, List.length_append, hBlen, hdlen]
  · rw [heq, List.take_left' hBlen]
  · rw [heq, List.drop_left' hBlen]

/-- Witness for C6: both branches at concrete histories — a one-message
history within capacity, and the forty appended messages over capacity. -/
theorem retention_policy_check :
    trim_chat_history [seedMsg] 1 16 = [seedMsg] ∧
    trim_chat_history pairMsgs 1 16 =
      pairMsgs.take 1 ++ pairMsgs.drop (pairMsgs.length - 16) ∧
    (trim_chat_history pairMsgs 1 16).length = 1 + 16 :=
  ⟨(retention_policy.1 [seedMsg] 1 16).1 (by decide),
   ((retention_policy.1 pairMsgs 1 16).2 (by decide)).1,
   ((retention_policy.1 pairMsgs 1 16).2 (by decide)).2.1⟩

/-- C7: a complete trimmed line without the exact `data: ` marker (for
example `event: message_start`) produces no event from either decoder,
and a `data: ` line whose payload fails to parse produces no event and
does not terminate the decoder — the verdict is `events []`, so decoding
continues with subsequent lines. -/
theorem unparsed_lines_skipped
    (parseO : List Char → Option OpenAiStreamChunk)
    (parseA : List Char → Option AnthropicStreamEvent)
    (raw : List Char) :
    (stripData (trimChars raw) = none →
      openaiHandleLine parseO raw = LineStep.events [] ∧
      anthropicHandleLine parseA raw = LineStep.events []) ∧
    (∀ p, stripData (trimChars raw) = some p → p ≠ doneLit → parseO p = none →
      openaiHandleLine parseO raw = LineStep.events []) ∧
    (∀ p, stripData (trimChars raw) = some p → parseA p = none →
      anthropicHandleLine parseA raw = LineStep.events []) := by
  refine ⟨fun hn => ?_, fun p hp hd hparse => ?_, fun p hp hparse => ?_⟩
  · by_cases h0 : trimChars raw = []
    · exact ⟨by simp [openaiHandleLine, h0], by simp [anthropicHandleLine, h0]⟩
    · exact ⟨by simp [openaiHandleLine, h0, hn], by simp [anthropicHandleLine, h0, hn]⟩
  · have h0 : trimChars raw ≠ [] := fun h0 => by simp [h0, stripData] at hp
    have hdel : openaiDeltaOf parseO p = none := by simp [openaiDeltaOf, hparse]
    simp [openaiHandleLine, h0, hp, hd, hdel]
  · have h0 : trimChars raw ≠ [] := fun h0 => by simp [h0, stripData] at hp
    simp [anthropicHandleLine, h0, hp, hparse]

/-- Witness for C7: an `event: message_start` line, and unparseable
`data: ` payloads, against parse functions that reject everything. -/
theorem unparsed_lines_skipped_check :
    (openaiHandleLine (fun _ => none) "event: message_start".data = LineStep.events [] ∧
     anthropicHandleLine (fun _ => none) "event: message_start".data = LineStep.events []) ∧
    openaiHandleLine (fun _ => none) "data: oops".data = LineStep.events [] ∧
    anthropicHandleLine (fun _ => none) "data: oops".data = LineStep.events [] :=
  ⟨(unparsed_lines_skipped (fun _ => none) (fun _ => none)
      "event: message_start".data).1 (by decide),
   (unparsed_lines_skipped (fun _ => none) (fun _ => none)
      "data: oops".data).2.1 "oops".data (by decide) (by decide) rfl,
   (unparsed_lines_skipped (fun _ => none) (fun _ => none)
      "data: oops".data).2.2 "oops".data (by decide) rfl⟩

/-- C9: a `/provider` command with a non-empty unrecognized name leaves
the whole session state — provider, model, history — unchanged and
surfaces a diagnostic naming the unknown provider, while
`/provider anthropic` installs `anthropic` as the provider used for the
next request (model and history untouched). -/
theorem provider_switch (st : SessionState) (rest : String) :
    (strTrim rest ≠ "" →
     strLower (strTrim rest) ≠ "openai" →
     strLower (strTrim rest) ≠ "anthropic" →
       (handle_provider_command st rest).1 = st ∧
       (handle_provider_command st rest).2 =
         ["Unknown provider: " ++ strTrim rest ++ " (supported: openai, anthropic)"]) ∧
    ((handle_provider_command st " anthropic").1.current_provider = "anthropic" ∧
     (handle_provider_command st " anthropic").1.current_model = st.current_model ∧
     (handle_provider_command st " anthropic").1.history = st.history) := by
  constructor
  · intro h1 h2 h3
    simp only [handle_provider_command]
    rw [if_neg h1, if_neg (fun hor => hor.elim h2 h3)]
    exact ⟨rfl, rfl⟩
  · simp only [handle_provider_command]
    rw [show strTrim " anthropic" = "anthropic" from by decide]
    rw [show strLower "anthropic" = "anthropic" from by decide]
    rw [if_neg (by decide : ¬("anthropic" = "")),
      if_pos (Or.inr rfl : ("anthropic" : String) = "openai" ∨ ("anthropic" : String) = "anthropic")]
    exact ⟨rfl, rfl, rfl⟩

/-- Witness for C9: `/provider bogus` leaves the state unchanged;
`/provider anthropic` switches from `openai`. -/
theorem provider_switch_check :
    (handle_provider_command ⟨"gpt-4o-mini", "openai", []⟩ " bogus").1 =
      ⟨"gpt-4o-mini", "openai", []⟩ ∧
    (handle_provider_command ⟨"gpt-4o-mini", "openai", []⟩ " anthropic").1.current_provider =
      "anthropic" :=
  ⟨((provider_switch ⟨"gpt-4o-mini", "openai", []⟩ " bogus").1
      (by decide) (by decide) (by decide)).1,
   (provider_switch ⟨"gpt-4o-mini", "openai", []⟩ " anthropic").2.1⟩

/-- C10 counterexample: with a full history (base message plus sixteen
recent, length 17), a turn start whose provider resolution fails leaves
the history at length 16, not at its pre-turn length 17: the pre-request
retention pass already evicted the oldest recent message and the
`history.pop()` removes only the just-pushed user line. -/
theorem failed_turn_start_counterexample :
    hist17.length = 17 ∧
    (start_turn errResolve ⟨"gpt-4o-mini", "openai", hist17⟩ "hello").1.history.length = 16 := by
  decide

/-- C10 amended: when the provider cannot be resolved at turn start, no
request is issued, provider and model selections are untouched, and the
just-pushed user message is removed again; the history is exactly its
pre-turn value whenever the pre-turn length is at most 16 (so the
retention pass did not fire), while from a full history (length at least
17) the retention pass also evicts the oldest recent message, leaving
length 16. -/
theorem failed_turn_start (resolve : String → Except String Unit)
    (st : SessionState) (line e : String)
    (hres : resolve st.current_provider = Except.error e) :
    (start_turn resolve st line).2 = false ∧
    (start_turn resolve st line).1.current_provider = st.current_provider ∧
    (start_turn resolve st line).1.current_model = st.current_model ∧
    (start_turn resolve st line).1.history =
      (trim_chat_history (st.history ++ [chat_message "user" line])
        BASE_MESSAGES MAX_HISTORY_MESSAGES).dropLast ∧
    (st.history.length ≤ 16 → (start_turn resolve st line).1.history = st.history) ∧
    (17 ≤ st.history.length → (start_turn resolve st line).1.history.length = 16) := by
  simp only [start_turn, hres]
  refine ⟨trivial, trivial, trivial, trivial, fun hle => ?_, fun hge => ?_⟩
  · rw [trim_chat_history_le _ _ _ (by simp [BASE_MESSAGES, MAX_HISTORY_MESSAGES]; omega)]
    simp
  · rw [trim_chat_history_gt _ _ _ (by simp [BASE_MESSAGES, MAX_HISTORY_MESSAGES]; omega)]
    simp [BASE_MESSAGES, MAX_HISTORY_MESSAGES, List.length_dropLast, List.length_take,
      List.length_drop]
    omega

/-- Witness for C10 (amended): failing resolution from a one-message
history restores it exactly and issues no request. -/
theorem failed_turn_start_check :
    (start_turn errResolve ⟨"gpt-4o-mini", "openai", [seedMsg]⟩ "hi").2 = false ∧
    (start_turn errResolve ⟨"gpt-4o-mini", "openai", [seedMsg]⟩ "hi").1.history = [seedMsg] :=
  ⟨(failed_turn_start errResolve ⟨"gpt-4o-mini", "openai", [seedMsg]⟩ "hi"
      "Missing required environment variable: OPENAI_API_KEY" rfl).1,
   (failed_turn_start errResolve ⟨"gpt-4o-mini", "openai", [seedMsg]⟩ "hi"
      "Missing required environment variable: OPENAI_API_KEY" rfl).2.2.2.2.1 (by decide)⟩

/-- C3 counterexample: after a stream error following partial output
"Once upon a", the turn-finish code appends the partial text to history as
an assistant message — the history is not left as it was after the user's
message. -/
theorem stream_error_partial_kept_counterexample :
    finish_turn seedUserHistory errorItems =
      seedUserHistory ++ [chat_message "assistant" "Once upon a"] ∧
    finish_turn seedUserHistory errorItems ≠ seedUserHistory := by
  decide

/-- C3 amended: a stream error aborts only the turn (the error is
reported; the session loop continues), but the partial accumulation is not
discarded: when the deltas received before the error concatenate to a
non-empty text, that text is appended to history as an assistant message
(with retention applied); the history stays exactly as it was after the
user's message only when no text had accumulated. -/
theorem stream_error_partial_text (history : List ChatMessage)
    (ts : List String) (e : String) :
    (ts.foldl (fun a b => a ++ b) "" = "" →
      finish_turn history
        (Except.ok StreamEvent.Start ::
          (ts.map (fun t => Except.ok (StreamEvent.Delta t)) ++ [Except.error e])) =
        history) ∧
    (ts.foldl (fun a b => a ++ b) "" ≠ "" →
      finish_turn history
        (Except.ok StreamEvent.Start ::
          (ts.map (fun t => Except.ok (StreamEvent.Delta t)) ++ [Except.error e])) =
        trim_chat_history
          (history ++ [chat_message "assistant" (ts.foldl (fun a b => a ++ b) "")])
          BASE_MESSAGES MAX_HISTORY_MESSAGES) := by
  have hacc : accumulate_response
      (Except.ok StreamEvent.Start ::
        (ts.map (fun t => Except.ok (StreamEvent.Delta t)) ++ [Except.error e])) "" =
      ts.foldl (fun a b => a ++ b) "" := by
    simpa [accumulate_response] using accumulate_response_deltas e ts ""
  constructor
  · intro h0
    simp only [finish_turn, hacc]
    rw [if_pos h0]
  · intro h0
    simp only [finish_turn, hacc]
    rw [if_neg h0]

/-- Witness for C3 (amended): the "Once upon a" partial is appended. -/
theorem stream_error_partial_text_check :
    finish_turn seedUserHistory
      (Except.ok StreamEvent.Start ::
        (["Once upon a"].map (fun t => Except.ok (StreamEvent.Delta t)) ++
          [Except.error "Failed to read chunk"])) =
      trim_chat_history
        (seedUserHistory ++
          [chat_message "assistant" (["Once upon a"].foldl (fun a b => a ++ b) "")])
        BASE_MESSAGES MAX_HISTORY_MESSAGES :=
  (stream_error_partial_text seedUserHistory ["Once upon a"] "Failed to read chunk").2
    (by decide)
